import Mathlib

/-!
Verification of the DTN bundle transport layer of the solarpunk_utopia
repository: bundle data model, signing and verification, queue store,
TTL enforcement, cache budget eviction, forwarding selection, sync
ingestion, and the shutdown signal handler.

The shutdown signal handler is embedded from
frontend/android/app/src/main/python/app/main.py (handle_shutdown_signal).
The bundle record layout follows the bundles table schema in
tests/conftest.py (init_test_db).  The service layer itself
(TTLService, CacheService, CryptoService, the bundles and sync routers)
is wired in main.py but its module sources are not in the tree, so those
operations are modelled from the specification, as noted on each
definition.
-/

namespace DTN

/-- Priority levels of a bundle, from the data model: emergency, high,
normal, low.  Determines forwarding order under contention. -/
inductive Priority where
  | emergency
  | high
  | normal
  | low
deriving DecidableEq, Repr

/-- Numeric rank of a priority: emergency highest. -/
def prioRank : Priority → Nat
  | Priority.emergency => 3
  | Priority.high => 2
  | Priority.normal => 1
  | Priority.low => 0

/-- Audience tiers of a bundle, also used as peer trust tiers:
public, local, trusted, private. -/
inductive Audience where
  | publicT
  | localT
  | trustedT
  | privateT
deriving DecidableEq, Repr

/-- Numeric rank of an audience tier under the visibility ordering
public below local below trusted below private. -/
def audRank : Audience → Nat
  | Audience.publicT => 0
  | Audience.localT => 1
  | Audience.trustedT => 2
  | Audience.privateT => 3

/-- The six queues of the bundle lifecycle. -/
inductive Queue where
  | inbox
  | outbox
  | pending
  | delivered
  | expired
  | quarantine
deriving DecidableEq, Repr

/-- Rejection reasons reported by receivePush. -/
inductive Reason where
  | invalidSignature
  | budgetExceeded
deriving DecidableEq, Repr

/-- Signed content of a bundle: every bundle field except the signature
itself and the mutable transport metadata (queue, hopCount,
addedToQueueAt), per the data model invariant. -/
structure SignedContent where
  bundleId : Nat
  createdAt : Nat
  expiresAt : Nat
  priority : Priority
  audience : Audience
  topic : Nat
  tags : Nat
  payloadType : Nat
  payload : Nat
  hopLimit : Nat
  receiptPolicy : Nat
  authorPublicKey : Nat
  sizeBytes : Nat
deriving DecidableEq, Repr

/-- Modelled from the spec: an Ed25519 signature value, represented
symbolically as the signed canonical content together with the public
key of the signer (the CryptoService module is not in the tree). -/
structure Sig where
  content : SignedContent
  signerPub : Nat
deriving DecidableEq, Repr

/-- Modelled from the spec: derivation of the public key from the
private key of a keypair. -/
def pubOf (priv : Nat) : Nat := 2 * priv + 1

/-- Modelled from the spec: signing produces a signature binding the
canonical serialization of the content to the key of the signer. -/
def signContent (c : SignedContent) (priv : Nat) : Sig :=
  ⟨c, pubOf priv⟩

/-- Modelled from the spec: verification recomputes the canonical
serialization and checks the signature against the given public key.
Fails closed: any mismatch returns false, it never throws. -/
def verifySig (sig : Sig) (c : SignedContent) (pub : Nat) : Bool :=
  sig.content == c && sig.signerPub == pub

/-- Wire-format bundle: the fields of the bundles table except the
storage-record fields queue and addedToQueueAt. -/
structure Bundle where
  bundleId : Nat
  createdAt : Nat
  expiresAt : Nat
  priority : Priority
  audience : Audience
  topic : Nat
  tags : Nat
  payloadType : Nat
  payload : Nat
  hopLimit : Nat
  hopCount : Nat
  receiptPolicy : Nat
  signature : Sig
  authorPublicKey : Nat
  sizeBytes : Nat
deriving DecidableEq, Repr

/-- Projection of a bundle to its signed content: all fields except the
signature and hopCount (queue and addedToQueueAt live on the storage
record, not the wire bundle). -/
def signedContent (b : Bundle) : SignedContent :=
  ⟨b.bundleId, b.createdAt, b.expiresAt, b.priority, b.audience, b.topic,
   b.tags, b.payloadType, b.payload, b.hopLimit, b.receiptPolicy,
   b.authorPublicKey, b.sizeBytes⟩

/-- Verification of a whole bundle against its own authorPublicKey. -/
def verifyBundle (b : Bundle) : Bool :=
  verifySig b.signature (signedContent b) b.authorPublicKey

/-- Storage record of a bundle: one durable row per bundle, the bundle
fields plus the current queue and addedToQueueAt, as in the bundles
table of tests/conftest.py. -/
structure StoredBundle where
  bundle : Bundle
  queue : Queue
  addedToQueueAt : Nat
deriving DecidableEq, Repr

/-- Queue store state: the list of stored bundle records. -/
abbrev Store := List StoredBundle

/-- Bundle ids known locally, in any queue. -/
def knownIds (s : Store) : List Nat :=
  List.map (fun r => r.bundle.bundleId) s

/-- Total bytes used by the store, the sum of the sizeBytes of every
stored bundle. -/
def totalBytes (s : Store) : Nat :=
  List.foldr (fun r acc => r.bundle.sizeBytes + acc) 0 s

/-- Configuration of the cache budget service: the byte budget, the
priority floor above which eviction needs an explicit policy override,
and that override flag. -/
structure CacheConfig where
  budgetBytes : Nat
  priorityFloor : Priority
  policyOverride : Bool
deriving DecidableEq, Repr

/-- Modelled from the spec: a record the eviction policy must never
touch — an outbox bundle the local node authored and has not yet
forwarded, or a bundle above the configured priority floor when no
policy override is in force (CacheService is not in the tree). -/
def isProtected (cfg : CacheConfig) (r : StoredBundle) : Bool :=
  r.queue == Queue.outbox ||
    (!cfg.policyOverride && decide (prioRank cfg.priorityFloor < prioRank r.bundle.priority))

/-- Ordering of records by addedToQueueAt ascending (oldest first). -/
def addedLe (a b : StoredBundle) : Prop :=
  a.addedToQueueAt ≤ b.addedToQueueAt

instance : DecidableRel addedLe := fun a b =>
  inferInstanceAs (Decidable (a.addedToQueueAt ≤ b.addedToQueueAt))

instance : IsTotal StoredBundle addedLe :=
  ⟨fun a b => Nat.le_total a.addedToQueueAt b.addedToQueueAt⟩

instance : IsTrans StoredBundle addedLe :=
  ⟨fun _ _ _ hab hbc => Nat.le_trans hab hbc⟩

/-- Modelled from the spec: the ordered list of eviction candidates —
expired and quarantine records first, oldest addedToQueueAt first, then
delivered records, then low-priority pending and inbox records; records
protected by the policy are never candidates. -/
def evictionCandidates (cfg : CacheConfig) (s : Store) : List StoredBundle :=
  List.insertionSort addedLe
      (List.filter (fun r =>
        (r.queue == Queue.expired || r.queue == Queue.quarantine) && !isProtected cfg r) s)
    ++ List.filter (fun r => r.queue == Queue.delivered && !isProtected cfg r) s
    ++ List.filter (fun r =>
        (r.queue == Queue.pending || r.queue == Queue.inbox) &&
          r.bundle.priority == Priority.low && !isProtected cfg r) s

/-- Modelled from the spec: the eviction loop of enforceBudget — while
the stored bytes plus the bytes still needed exceed the budget and a
candidate exists, evict the first candidate and repeat.  The fuel
argument bounds the number of iterations; each iteration removes one
record, so fuel equal to the store length never runs out. -/
def evictTake (cfg : CacheConfig) (need : Nat) : Nat → Store → Store
  | 0, s => s
  | Nat.succ n, s =>
    if totalBytes s + need ≤ cfg.budgetBytes then s
    else
      match evictionCandidates cfg s with
      | [] => s
      | c :: _ => evictTake cfg need n (List.erase s c)

/-- Modelled from the spec: eviction until the store (plus the bytes
still needed) fits the budget or no candidate remains. -/
def evictLoop (cfg : CacheConfig) (need : Nat) (s : Store) : Store :=
  evictTake cfg need (List.length s) s

/-- Modelled from the spec: enforceBudget evicts candidates until the
store is within its byte budget or no candidate remains. -/
def enforceBudget (cfg : CacheConfig) (s : Store) : Store :=
  evictLoop cfg 0 s

/-- Modelled from the spec: the cache admission check for a new bundle —
if accepting would exceed the budget, first attempt eviction, then
re-check; returns the decision and the store after any evictions (the
insertion itself is done by the caller). -/
def admission (cfg : CacheConfig) (b : Bundle) (s : Store) : Bool × Store :=
  if totalBytes s + b.sizeBytes ≤ cfg.budgetBytes then (true, s)
  else
    let s' := evictLoop cfg b.sizeBytes s
    (decide (totalBytes s' + b.sizeBytes ≤ cfg.budgetBytes), s')

/-- Local node context for ingestion: whether this node is in the
intended audience terminus of a bundle. -/
structure NodeCtx where
  terminus : Bundle → Bool

/-- Modelled from the spec: after admission a received bundle is put
into inbox and immediately evaluated for the pending or delivered
transition, based on whether this node is the audience terminus. -/
def routeQueue (node : NodeCtx) (b : Bundle) : Queue :=
  if node.terminus b then Queue.delivered else Queue.pending

/-- Result of receivePush: the store after ingestion plus the accepted
ids and the rejected ids with their reasons. -/
structure PushResult where
  store : Store
  accepted : List Nat
  rejected : List (Nat × Reason)
deriving DecidableEq

/-- Modelled from the spec: processing of a single pushed bundle —
duplicate suppression first (a known id is a no-op success, not
re-verified, not re-admitted), then signature verification (an invalid
bundle goes to quarantine and is reported as invalid_signature), then
cache admission (failure is reported as budget_exceeded), then the put
into the store with the pending or delivered routing. -/
def stepPush (cfg : CacheConfig) (node : NodeCtx) (now : Nat)
    (acc : PushResult) (b : Bundle) : PushResult :=
  if b.bundleId ∈ knownIds acc.store then
    { acc with accepted := acc.accepted ++ [b.bundleId] }
  else if verifyBundle b = false then
    { store := acc.store ++ [⟨b, Queue.quarantine, now⟩],
      accepted := acc.accepted,
      rejected := acc.rejected ++ [(b.bundleId, Reason.invalidSignature)] }
  else
    let p := admission cfg b acc.store
    if p.1 then
      { store := p.2 ++ [⟨b, routeQueue node b, now⟩],
        accepted := acc.accepted ++ [b.bundleId],
        rejected := acc.rejected }
    else
      { store := p.2,
        accepted := acc.accepted,
        rejected := acc.rejected ++ [(b.bundleId, Reason.budgetExceeded)] }

/-- Fold of stepPush over a batch, threading the running result. -/
def runPush (cfg : CacheConfig) (node : NodeCtx) (now : Nat)
    (acc : PushResult) (batch : List Bundle) : PushResult :=
  List.foldl (stepPush cfg node now) acc batch

/-- Modelled from the spec: receivePush processes each bundle of the
batch independently, starting from the given store with empty accepted
and rejected lists. -/
def receivePush (cfg : CacheConfig) (node : NodeCtx) (now : Nat)
    (s : Store) (batch : List Bundle) : PushResult :=
  runPush cfg node now ⟨s, [], []⟩ batch

/-- Modelled from the spec: one step of the TTL sweep on a single
record — a record in a queue other than expired, quarantine and
delivered whose expiresAt has passed moves to expired, every other
record is untouched. -/
def sweepOne (now : Nat) (r : StoredBundle) : StoredBundle :=
  if (r.queue ≠ Queue.expired ∧ r.queue ≠ Queue.quarantine ∧ r.queue ≠ Queue.delivered)
      ∧ r.bundle.expiresAt ≤ now then
    { r with queue := Queue.expired }
  else r

/-- Modelled from the spec: one TTL sweep scans every record of the
store and applies the expiry transition (TTLService is not in the
tree). -/
def ttlSweep (now : Nat) (s : Store) : Store :=
  List.map (sweepOne now) s

/-- Peer context for forwarding selection: the trust tier of the peer
and the ids already acknowledged as delivered to that peer. -/
structure PeerContext where
  trust : Audience
  acked : List Nat
deriving DecidableEq, Repr

/-- Forwarding order: priority descending (emergency first), ties
broken by createdAt ascending (oldest first). -/
def fwdLe (a b : StoredBundle) : Prop :=
  prioRank b.bundle.priority < prioRank a.bundle.priority ∨
    (prioRank a.bundle.priority = prioRank b.bundle.priority ∧
      a.bundle.createdAt ≤ b.bundle.createdAt)

instance : DecidableRel fwdLe := fun a b =>
  inferInstanceAs (Decidable (_ ∨ _))

instance : IsTotal StoredBundle fwdLe :=
  ⟨fun a b => by
    unfold fwdLe
    omega⟩

instance : IsTrans StoredBundle fwdLe :=
  ⟨fun a b c hab hbc => by
    unfold fwdLe at hab hbc ⊢
    omega⟩

/-- Modelled from the spec: eligibility of a stored record for
forwarding to a peer — hopCount strictly below hopLimit, the peer trust
tier meets or exceeds the audience tier of the bundle, and the bundle
is not already acknowledged as delivered to that peer. -/
def eligible (p : PeerContext) (r : StoredBundle) : Bool :=
  decide (r.bundle.hopCount < r.bundle.hopLimit) &&
    decide (audRank r.bundle.audience ≤ audRank p.trust) &&
    !(List.elem r.bundle.bundleId p.acked)

/-- Modelled from the spec: selectForForward filters the records of the
candidate queue by eligibility for the peer and orders the survivors by
priority descending with createdAt ascending as tie-break. -/
def selectForForward (s : Store) (q : Queue) (p : PeerContext) : List StoredBundle :=
  List.insertionSort fwdLe
    (List.filter (fun r => r.queue == q && eligible p r) s)

/-- Hop-count increment applied to the forwarded copy of a relayed
bundle before transmission. -/
def bumpHop (b : Bundle) : Bundle :=
  { b with hopCount := b.hopCount + 1 }

/-- Modelled from the spec: pull selects the forwardable bundles for
the peer — locally authored outbox bundles go out unchanged, relayed
pending bundles get hopCount incremented on the forwarded copy. -/
def pullBundles (s : Store) (p : PeerContext) : List Bundle :=
  List.map (fun r => r.bundle) (selectForForward s Queue.outbox p) ++
    List.map (fun r => bumpHop r.bundle) (selectForForward s Queue.pending p)

/-- Shutdown coordination state of main.py: the _shutdown_initiated
flag and the asyncio shutdown event. -/
structure ShutdownState where
  shutdownInitiated : Bool
  eventSet : Bool
deriving DecidableEq, Repr

/-- Embedded from handle_shutdown_signal in main.py: a repeated signal
while shutdown is already initiated is ignored, otherwise the handler
marks shutdown initiated and sets the shutdown event. -/
def handleShutdownSignal (s : ShutdownState) : ShutdownState :=
  if s.shutdownInitiated then s
  else { shutdownInitiated := true, eventSet := true }

/-- Signed content of the concrete bundles used in witnesses. -/
def mkContent (id : Nat) (prio : Priority) (aud : Audience)
    (created expires size hopL : Nat) : SignedContent :=
  ⟨id, created, expires, prio, aud, 0, 0, 0, 0, hopL, 0, pubOf 7, size⟩

/-- Concrete validly signed bundle used in witnesses. -/
def mkBundle (id : Nat) (prio : Priority) (aud : Audience)
    (created expires size hopC hopL : Nat) : Bundle :=
  { bundleId := id, createdAt := created, expiresAt := expires,
    priority := prio, audience := aud, topic := 0, tags := 0,
    payloadType := 0, payload := 0, hopLimit := hopL, hopCount := hopC,
    receiptPolicy := 0,
    signature := signContent (mkContent id prio aud created expires size hopL) 7,
    authorPublicKey := pubOf 7, sizeBytes := size }

/-- Concrete bundle with audience trusted, used for the audience gating
scenario. -/
def demoTrustedBundle : Bundle :=
  mkBundle 21 Priority.normal Audience.trustedT 10 100 50 0 3

/-- Stored outbox record of the trusted-audience demo bundle. -/
def demoTrustedRec : StoredBundle :=
  ⟨demoTrustedBundle, Queue.outbox, 10⟩

/-- Store holding only the trusted-audience demo bundle. -/
def demoTrustedStore : Store := [demoTrustedRec]

/-- Concrete low-priority outbox record for the ordering scenario. -/
def demoLowRec : StoredBundle :=
  ⟨mkBundle 31 Priority.low Audience.publicT 1 100 10 0 3, Queue.outbox, 1⟩

/-- Concrete emergency-priority outbox record for the ordering
scenario. -/
def demoEmergencyRec : StoredBundle :=
  ⟨mkBundle 32 Priority.emergency Audience.publicT 2 100 10 0 3, Queue.outbox, 2⟩

/-- Concrete normal-priority outbox record for the ordering scenario. -/
def demoNormalRec : StoredBundle :=
  ⟨mkBundle 33 Priority.normal Audience.publicT 3 100 10 0 3, Queue.outbox, 3⟩

/-- Store holding the three ordering-scenario records in the order low,
emergency, normal. -/
def demoPrioStore : Store := [demoLowRec, demoEmergencyRec, demoNormalRec]

/-- Peer context with public trust and no acknowledgements. -/
def demoPublicPeer : PeerContext := ⟨Audience.publicT, []⟩

/-- Node context that is never the audience terminus. -/
def demoNode : NodeCtx := ⟨fun _ => false⟩

/-- Default cache configuration used in witnesses: kilobyte budget,
priority floor low, no override. -/
def demoCfg : CacheConfig := ⟨1000, Priority.low, false⟩

end DTN

namespace DTN

/-- Eviction candidates are records of the store. -/
theorem evictionCandidates_subset (cfg : CacheConfig) (s : Store) :
    ∀ r ∈ evictionCandidates cfg s, r ∈ s := by
  intro r hr
  rcases List.mem_append.1 hr with h | h
  · rcases List.mem_append.1 h with h1 | h2
    · exact List.mem_of_mem_filter ((List.mem_insertionSort addedLe).1 h1)
    · exact List.mem_of_mem_filter h2
  · exact List.mem_of_mem_filter h

/-- Eviction candidates are never protected records. -/
theorem evictionCandidates_not_protected (cfg : CacheConfig) (s : Store) :
    ∀ r ∈ evictionCandidates cfg s, isProtected cfg r = false := by
  intro r hr
  rcases List.mem_append.1 hr with h | h
  · rcases List.mem_append.1 h with h1 | h2
    · have := List.of_mem_filter ((List.mem_insertionSort addedLe).1 h1)
      simp only [Bool.and_eq_true, Bool.not_eq_true'] at this
      exact this.2
    · have := List.of_mem_filter h2
      simp only [Bool.and_eq_true, Bool.not_eq_true'] at this
      exact this.2
  · have := List.of_mem_filter h
    simp only [Bool.and_eq_true, Bool.not_eq_true'] at this
    exact this.2

/-- Unfolding of the eviction loop when the store is already within
budget. -/
theorem evictTake_of_le (cfg : CacheConfig) (need : Nat) (n : Nat) (s : Store)
    (h : totalBytes s + need ≤ cfg.budgetBytes) : evictTake cfg need n s = s := by
  cases n with
  | zero => rfl
  | succ n => simp [evictTake, h]

/-- Unfolding of the eviction loop when no eviction candidate exists. -/
theorem evictTake_of_no_candidates (cfg : CacheConfig) (need : Nat) (n : Nat) (s : Store)
    (h : evictionCandidates cfg s = []) : evictTake cfg need n s = s := by
  cases n with
  | zero => rfl
  | succ n =>
    unfold evictTake
    split
    · rfl
    · split
      · rfl
      · rename_i heq
        rw [h] at heq
        exact absurd heq (List.cons_ne_nil _ _).symm

/-- Postcondition of the eviction loop at any sufficient fuel: on
return, the store fits the budget (with the bytes still needed) or no
eviction candidate remains. -/
theorem evictTake_spec (cfg : CacheConfig) (need : Nat) :
    ∀ (n : Nat) (s : Store), List.length s ≤ n →
      totalBytes (evictTake cfg need n s) + need ≤ cfg.budgetBytes ∨
        evictionCandidates cfg (evictTake cfg need n s) = [] := by
  intro n
  induction n with
  | zero =>
    intro s hs
    have hnil : s = [] := List.length_eq_zero.1 (Nat.le_zero.1 hs)
    subst hnil
    exact Or.inr rfl
  | succ n ih =>
    intro s hs
    unfold evictTake
    split
    · rename_i h
      exact Or.inl h
    · split
      · rename_i h
        exact Or.inr h
      · rename_i c rest h
        apply ih
        have hc : c ∈ s := evictionCandidates_subset cfg s c (h ▸ List.mem_cons_self c _)
        have hlen := List.length_erase_of_mem hc
        have hpos : 0 < List.length s := List.length_pos.2 (List.ne_nil_of_mem hc)
        omega

/-- Postcondition of evictLoop: on return, the store fits the budget
(with the bytes still needed) or no eviction candidate remains. -/
theorem evictLoop_spec (cfg : CacheConfig) (need : Nat) (s : Store) :
    totalBytes (evictLoop cfg need s) + need ≤ cfg.budgetBytes ∨
      evictionCandidates cfg (evictLoop cfg need s) = [] :=
  evictTake_spec cfg need (List.length s) s (Nat.le_refl _)

/-- Running the eviction loop on its own result changes nothing. -/
theorem evictLoop_idem (cfg : CacheConfig) (need : Nat) (s : Store) :
    evictLoop cfg need (evictLoop cfg need s) = evictLoop cfg need s := by
  rcases evictLoop_spec cfg need s with h | h
  · exact evictTake_of_le cfg need _ _ h
  · exact evictTake_of_no_candidates cfg need _ _ h

/-- The eviction loop only removes records, it never adds any. -/
theorem evictTake_subset (cfg : CacheConfig) (need : Nat) :
    ∀ (n : Nat) (s : Store), ∀ r ∈ evictTake cfg need n s, r ∈ s := by
  intro n
  induction n with
  | zero =>
    intro s r hr
    exact hr
  | succ n ih =>
    intro s r
    unfold evictTake
    split
    · exact fun hr => hr
    · split
      · exact fun hr => hr
      · rename_i c rest h
        intro hr
        exact List.erase_subset _ _ (ih (List.erase s c) r hr)

/-- A bundle id unknown before the eviction loop is still unknown after
it. -/
theorem not_known_evictLoop (cfg : CacheConfig) (need : Nat) (s : Store) (x : Nat)
    (h : x ∉ knownIds s) : x ∉ knownIds (evictLoop cfg need s) := by
  intro hmem
  apply h
  rcases List.mem_map.1 hmem with ⟨r, hr, hid⟩
  exact List.mem_map.2 ⟨r, evictTake_subset cfg need _ s r hr, hid⟩

/-- Protected records survive the eviction loop: eviction only removes
candidates, and candidates are never protected. -/
theorem evictTake_preserves_protected (cfg : CacheConfig) (need : Nat) :
    ∀ (n : Nat) (s : Store), ∀ r ∈ s, isProtected cfg r = true →
      r ∈ evictTake cfg need n s := by
  intro n
  induction n with
  | zero =>
    intro s r hr _
    exact hr
  | succ n ih =>
    intro s r hr hp
    unfold evictTake
    split
    · exact hr
    · split
      · exact hr
      · rename_i c rest h
        have hcp : isProtected cfg c = false :=
          evictionCandidates_not_protected cfg s c (h ▸ List.mem_cons_self c _)
        have hne : r ≠ c := by
          intro he
          rw [he, hcp] at hp
          exact Bool.false_ne_true hp
        exact ih (List.erase s c) r ((List.mem_erase_of_ne hne).2 hr) hp

/-- State produced by a failed admission: the eviction loop has run. -/
theorem admission_false_state (cfg : CacheConfig) (b : Bundle) (s : Store)
    (h : (admission cfg b s).1 = false) :
    (admission cfg b s).2 = evictLoop cfg b.sizeBytes s := by
  unfold admission at h ⊢
  by_cases hle : totalBytes s + b.sizeBytes ≤ cfg.budgetBytes
  · rw [if_pos hle] at h
    exact absurd h (by simp)
  · rw [if_neg hle]

/-- A failed admission leaves the store still over budget for the
incoming bundle. -/
theorem admission_false_over (cfg : CacheConfig) (b : Bundle) (s : Store)
    (h : (admission cfg b s).1 = false) :
    ¬ (totalBytes (admission cfg b s).2 + b.sizeBytes ≤ cfg.budgetBytes) := by
  unfold admission at h ⊢
  by_cases hle : totalBytes s + b.sizeBytes ≤ cfg.budgetBytes
  · rw [if_pos hle] at h
    exact absurd h (by simp)
  · rw [if_neg hle] at h ⊢
    simpa using h

/-- Repeating a failed admission on its resulting store fails again and
changes nothing. -/
theorem admission_repeat (cfg : CacheConfig) (b : Bundle) (s : Store)
    (h : (admission cfg b s).1 = false) :
    admission cfg b (admission cfg b s).2 = (false, (admission cfg b s).2) := by
  have hst := admission_false_state cfg b s h
  have hov := admission_false_over cfg b s h
  have hfix : evictLoop cfg b.sizeBytes (admission cfg b s).2 = (admission cfg b s).2 := by
    rw [hst, evictLoop_idem]
  set t := (admission cfg b s).2 with ht
  show admission cfg b t = (false, t)
  unfold admission
  rw [if_neg hov]
  simp only []
  rw [hfix, decide_eq_false hov]

/-- Unfolding of runPush on a cons batch. -/
theorem runPush_cons (cfg : CacheConfig) (node : NodeCtx) (now : Nat)
    (acc : PushResult) (b : Bundle) (batch : List Bundle) :
    runPush cfg node now acc (b :: batch) =
      runPush cfg node now (stepPush cfg node now acc b) batch := rfl

/-- Splitting runPush over an appended batch. -/
theorem runPush_append (cfg : CacheConfig) (node : NodeCtx) (now : Nat)
    (acc : PushResult) (l1 l2 : List Bundle) :
    runPush cfg node now acc (l1 ++ l2) =
      runPush cfg node now (runPush cfg node now acc l1) l2 := by
  unfold runPush
  exact List.foldl_append _ _ _ _

/-- The accepted and rejected accumulators of stepPush are threaded by
appending: processing one bundle from a nonempty accumulator appends
the same outcome it produces from an empty accumulator. -/
theorem stepPush_acc (cfg : CacheConfig) (node : NodeCtx) (now : Nat)
    (s : Store) (a : List Nat) (rj : List (Nat × Reason)) (b : Bundle) :
    stepPush cfg node now ⟨s, a, rj⟩ b =
      ⟨(stepPush cfg node now ⟨s, [], []⟩ b).store,
       a ++ (stepPush cfg node now ⟨s, [], []⟩ b).accepted,
       rj ++ (stepPush cfg node now ⟨s, [], []⟩ b).rejected⟩ := by
  unfold stepPush
  by_cases h1 : b.bundleId ∈ knownIds s
  · simp [h1]
  · by_cases h2 : verifyBundle b = false
    · simp [h1, h2]
    · by_cases h3 : (admission cfg b s).1
      · simp [h1, h2, h3]
      · simp [h1, h2, h3]

/-- The accepted and rejected accumulators of runPush are threaded by
appending over a whole batch. -/
theorem runPush_acc (cfg : CacheConfig) (node : NodeCtx) (now : Nat) :
    ∀ (batch : List Bundle) (s : Store) (a : List Nat) (rj : List (Nat × Reason)),
      runPush cfg node now ⟨s, a, rj⟩ batch =
        ⟨(runPush cfg node now ⟨s, [], []⟩ batch).store,
         a ++ (runPush cfg node now ⟨s, [], []⟩ batch).accepted,
         rj ++ (runPush cfg node now ⟨s, [], []⟩ batch).rejected⟩ := by
  intro batch
  induction batch with
  | nil =>
    intro s a rj
    simp [runPush]
  | cons x xs ih =>
    intro s a rj
    have ihq : ∀ q : PushResult, runPush cfg node now q xs =
        ⟨(runPush cfg node now ⟨q.store, [], []⟩ xs).store,
         q.accepted ++ (runPush cfg node now ⟨q.store, [], []⟩ xs).accepted,
         q.rejected ++ (runPush cfg node now ⟨q.store, [], []⟩ xs).rejected⟩ := by
      intro q
      cases q with
      | mk st acp rjj => exact ih st acp rjj
    rw [runPush_cons, runPush_cons, stepPush_acc cfg node now s a rj x,
      ihq ⟨(stepPush cfg node now ⟨s, [], []⟩ x).store,
        a ++ (stepPush cfg node now ⟨s, [], []⟩ x).accepted,
        rj ++ (stepPush cfg node now ⟨s, [], []⟩ x).rejected⟩,
      ihq (stepPush cfg node now ⟨s, [], []⟩ x)]
    simp [List.append_assoc]

/-- Unfolding of receivePush on a single-bundle batch. -/
theorem receivePush_single (cfg : CacheConfig) (node : NodeCtx) (now : Nat)
    (s : Store) (b : Bundle) :
    receivePush cfg node now s [b] = stepPush cfg node now ⟨s, [], []⟩ b := rfl

/-- Duplicate suppression: a push whose bundle id is already known in
any queue is a no-op success, neither re-verified nor re-admitted. -/
theorem receivePush_known (cfg : CacheConfig) (node : NodeCtx) (now : Nat)
    (s : Store) (b : Bundle) (h : b.bundleId ∈ knownIds s) :
    receivePush cfg node now s [b] = ⟨s, [b.bundleId], []⟩ := by
  rw [receivePush_single]
  unfold stepPush
  simp [h]

/-- Decomposition of a selected record: it is a store record of the
requested queue that is eligible for the peer. -/
theorem selectForForward_facts (s : Store) (q : Queue) (p : PeerContext)
    (r : StoredBundle) (h : r ∈ selectForForward s q p) :
    r ∈ s ∧ r.queue = q ∧ eligible p r = true := by
  have h2 := (List.mem_insertionSort fwdLe).1 h
  have h3 := List.mem_filter.1 h2
  have h4 := h3.2
  simp only [Bool.and_eq_true, beq_iff_eq] at h4
  exact ⟨h3.1, h4.1, h4.2⟩

/-- Decomposition of eligibility: hop room and audience compatibility. -/
theorem eligible_facts (p : PeerContext) (r : StoredBundle)
    (h : eligible p r = true) :
    r.bundle.hopCount < r.bundle.hopLimit ∧
      audRank r.bundle.audience ≤ audRank p.trust := by
  unfold eligible at h
  simp only [Bool.and_eq_true, decide_eq_true_eq] at h
  exact ⟨h.1.1, h.1.2⟩

/-- C2: signature round-trip.  Verifying a freshly produced signature
against the same content and the matching public key succeeds;
verifying it against any different signed content (any signed field
mutated after signing) returns false rather than throwing; and
mutating the unsigned transport field hopCount does not affect
verification. -/
theorem signature_round_trip :
    (∀ (c : SignedContent) (k : Nat), verifySig (signContent c k) c (pubOf k) = true) ∧
    (∀ (c c' : SignedContent) (k pub : Nat), c ≠ c' →
      verifySig (signContent c k) c' pub = false) ∧
    (∀ (b : Bundle) (n : Nat), verifyBundle { b with hopCount := n } = verifyBundle b) := by
  refine ⟨?_, ?_, ?_⟩
  · intro c k
    simp [verifySig, signContent]
  · intro c c' k pub hne
    simp [verifySig, signContent, hne]
  · intro b n
    rfl

/-- Witness for C2 at concrete inputs: two contents differing in the
payload field, one keypair. -/
theorem signature_round_trip_witness :
    verifySig (signContent (mkContent 1 Priority.normal Audience.publicT 2 3 7 4) 11)
        (mkContent 1 Priority.normal Audience.publicT 2 3 8 4) (pubOf 11) = false :=
  signature_round_trip.2.1
    (mkContent 1 Priority.normal Audience.publicT 2 3 7 4)
    (mkContent 1 Priority.normal Audience.publicT 2 3 8 4)
    11 (pubOf 11) (by decide)

/-- C3: TTL monotonicity.  Every stored bundle whose expiresAt has
passed and that sits in a queue other than expired, quarantine and
delivered is moved to the expired queue by one TTL sweep. -/
theorem ttl_monotonicity :
    ∀ (now : Nat) (s : Store) (r : StoredBundle), r ∈ s →
      r.queue ≠ Queue.expired → r.queue ≠ Queue.quarantine → r.queue ≠ Queue.delivered →
      r.bundle.expiresAt ≤ now →
      { r with queue := Queue.expired } ∈ ttlSweep now s := by
  intro now s r hr h1 h2 h3 hexp
  have hs : sweepOne now r = { r with queue := Queue.expired } := by
    unfold sweepOne
    rw [if_pos ⟨⟨h1, h2, h3⟩, hexp⟩]
  exact hs ▸ List.mem_map_of_mem (sweepOne now) hr

/-- Witness for C3: an expired inbox record moves to the expired queue
under a sweep at time 10. -/
theorem ttl_monotonicity_witness :
    ({ bundle := mkBundle 61 Priority.normal Audience.publicT 1 5 10 0 3,
       queue := Queue.expired, addedToQueueAt := 1 } : StoredBundle) ∈
      ttlSweep 10 [⟨mkBundle 61 Priority.normal Audience.publicT 1 5 10 0 3, Queue.inbox, 1⟩] :=
  ttl_monotonicity 10
    [⟨mkBundle 61 Priority.normal Audience.publicT 1 5 10 0 3, Queue.inbox, 1⟩]
    ⟨mkBundle 61 Priority.normal Audience.publicT 1 5 10 0 3, Queue.inbox, 1⟩
    (by decide) (by decide) (by decide) (by decide) (by decide)

/-- C4: budget postcondition.  When enforceBudget returns, the store is
within its byte budget or no eviction candidate remains; and when
admission would still exceed the budget after eviction is exhausted,
admission returns false instead of evicting further. -/
theorem budget_postcondition :
    (∀ (cfg : CacheConfig) (s : Store),
        totalBytes (enforceBudget cfg s) ≤ cfg.budgetBytes ∨
          evictionCandidates cfg (enforceBudget cfg s) = []) ∧
    (∀ (cfg : CacheConfig) (b : Bundle) (s : Store),
        (admission cfg b s).1 = false →
          cfg.budgetBytes < totalBytes (admission cfg b s).2 + b.sizeBytes ∧
            evictionCandidates cfg (admission cfg b s).2 = []) := by
  constructor
  · intro cfg s
    have h := evictLoop_spec cfg 0 s
    simpa [enforceBudget] using h
  · intro cfg b s h
    have hov := admission_false_over cfg b s h
    refine ⟨by omega, ?_⟩
    rw [admission_false_state cfg b s h] at hov ⊢
    rcases evictLoop_spec cfg b.sizeBytes s with hle | hcand
    · exact absurd hle hov
    · exact hcand

/-- Witness for C4 at a zero budget: admission of a fresh bundle into a
store holding only a protected outbox record fails, reporting that the
budget is still exceeded with no eviction candidate left. -/
theorem budget_postcondition_witness :
    (⟨0, Priority.low, false⟩ : CacheConfig).budgetBytes <
        totalBytes (admission ⟨0, Priority.low, false⟩
          (mkBundle 52 Priority.normal Audience.publicT 2 100 3 0 3)
          [⟨mkBundle 51 Priority.normal Audience.publicT 1 100 5 0 3, Queue.outbox, 1⟩]).2 +
          (mkBundle 52 Priority.normal Audience.publicT 2 100 3 0 3).sizeBytes ∧
      evictionCandidates ⟨0, Priority.low, false⟩
        (admission ⟨0, Priority.low, false⟩
          (mkBundle 52 Priority.normal Audience.publicT 2 100 3 0 3)
          [⟨mkBundle 51 Priority.normal Audience.publicT 1 100 5 0 3, Queue.outbox, 1⟩]).2 = [] :=
  budget_postcondition.2 ⟨0, Priority.low, false⟩
    (mkBundle 52 Priority.normal Audience.publicT 2 100 3 0 3)
    [⟨mkBundle 51 Priority.normal Audience.publicT 1 100 5 0 3, Queue.outbox, 1⟩]
    (by decide)

/-- C5: eviction never touches protected bundles.  Protected records —
outbox bundles the node authored and has not forwarded, and bundles
above the priority floor without a policy override — survive every
eviction loop; eviction candidates are never protected; and the
candidate list is expired and quarantine records first, oldest
addedToQueueAt first, then delivered records, then low-priority pending
and inbox records. -/
theorem eviction_protection :
    (∀ (cfg : CacheConfig) (s : Store) (n : Nat) (r : StoredBundle),
        r ∈ s → isProtected cfg r = true → r ∈ evictLoop cfg n s) ∧
    (∀ (cfg : CacheConfig) (s : Store) (r : StoredBundle),
        r ∈ evictionCandidates cfg s → isProtected cfg r = false) ∧
    (∀ (cfg : CacheConfig) (s : Store), ∃ t1 t2 t3,
        evictionCandidates cfg s = t1 ++ t2 ++ t3 ∧
          List.Sorted addedLe t1 ∧
          (∀ r ∈ t1, r.queue = Queue.expired ∨ r.queue = Queue.quarantine) ∧
          (∀ r ∈ t2, r.queue = Queue.delivered) ∧
          (∀ r ∈ t3, (r.queue = Queue.pending ∨ r.queue = Queue.inbox) ∧
            r.bundle.priority = Priority.low)) := by
  refine ⟨?_, evictionCandidates_not_protected, ?_⟩
  · intro cfg s n r hr hp
    exact evictTake_preserves_protected cfg n (List.length s) s r hr hp
  · intro cfg s
    refine ⟨_, _, _, rfl, List.sorted_insertionSort addedLe _, ?_, ?_, ?_⟩
    · intro r hr
      have h := List.of_mem_filter ((List.mem_insertionSort addedLe).1 hr)
      simp only [Bool.and_eq_true, Bool.or_eq_true, beq_iff_eq] at h
      exact h.1
    · intro r hr
      have h := List.of_mem_filter hr
      simp only [Bool.and_eq_true, beq_iff_eq] at h
      exact h.1
    · intro r hr
      have h := List.of_mem_filter hr
      simp only [Bool.and_eq_true, Bool.or_eq_true, beq_iff_eq] at h
      exact ⟨h.1.1, h.1.2⟩

/-- Witness for C5: a protected outbox record survives an eviction loop
run under a zero budget. -/
theorem eviction_protection_witness :
    (⟨mkBundle 51 Priority.normal Audience.publicT 1 100 5 0 3, Queue.outbox, 1⟩ : StoredBundle) ∈
      evictLoop ⟨0, Priority.low, false⟩ 0
        [⟨mkBundle 51 Priority.normal Audience.publicT 1 100 5 0 3, Queue.outbox, 1⟩] :=
  eviction_protection.1 ⟨0, Priority.low, false⟩
    [⟨mkBundle 51 Priority.normal Audience.publicT 1 100 5 0 3, Queue.outbox, 1⟩] 0
    ⟨mkBundle 51 Priority.normal Audience.publicT 1 100 5 0 3, Queue.outbox, 1⟩
    (by decide) (by decide)

/-- C10: shutdown-signal idempotence.  Handling a shutdown signal twice
leaves the same state as handling it once; a signal delivered while
shutdown is already initiated changes nothing; and the first signal
sets both the initiated flag and the shutdown event. -/
theorem shutdown_signal_idempotence :
    ∀ s : ShutdownState,
      handleShutdownSignal (handleShutdownSignal s) = handleShutdownSignal s ∧
      (s.shutdownInitiated = true → handleShutdownSignal s = s) ∧
      (s.shutdownInitiated = false →
        handleShutdownSignal s = { shutdownInitiated := true, eventSet := true }) := by
  intro s
  cases h : s.shutdownInitiated <;>
    simp [handleShutdownSignal, h]

/-- Witness for C10: a second signal after initiation is ignored. -/
theorem shutdown_signal_idempotence_witness :
    handleShutdownSignal ⟨true, true⟩ = ⟨true, true⟩ :=
  (shutdown_signal_idempotence ⟨true, true⟩).2.1 rfl

/-- C6: hop-limit enforcement.  selectForForward only returns records
with hopCount strictly below hopLimit, and a stored bundle whose
hopCount has reached or exceeded its hopLimit never appears in the pull
result for any peer (in a store without duplicate bundle ids). -/
theorem hop_limit_enforcement :
    (∀ (s : Store) (q : Queue) (p : PeerContext) (r : StoredBundle),
        r ∈ selectForForward s q p → r.bundle.hopCount < r.bundle.hopLimit) ∧
    (∀ (s : Store) (p : PeerContext) (r : StoredBundle),
        List.Nodup (knownIds s) → r ∈ s → r.bundle.hopLimit ≤ r.bundle.hopCount →
          r.bundle ∉ pullBundles s p) := by
  have hsel : ∀ (s : Store) (q : Queue) (p : PeerContext) (r : StoredBundle),
      r ∈ selectForForward s q p → r.bundle.hopCount < r.bundle.hopLimit := by
    intro s q p r hr
    exact (eligible_facts p r (selectForForward_facts s q p r hr).2.2).1
  refine ⟨hsel, ?_⟩
  intro s p r hnd hr hlim hmem
  rcases List.mem_append.1 hmem with h | h
  · rcases List.mem_map.1 h with ⟨r', hr', he⟩
    have hr's : r' ∈ s := (selectForForward_facts s Queue.outbox p r' hr').1
    have hid : r'.bundle.bundleId = r.bundle.bundleId := by rw [he]
    have heq : r' = r := List.inj_on_of_nodup_map hnd hr's hr hid
    have hlt := hsel s Queue.outbox p r' hr'
    rw [heq] at hlt
    omega
  · rcases List.mem_map.1 h with ⟨r', hr', he⟩
    have hr's : r' ∈ s := (selectForForward_facts s Queue.pending p r' hr').1
    have hid : r'.bundle.bundleId = r.bundle.bundleId := by
      rw [← he]
      rfl
    have heq : r' = r := List.inj_on_of_nodup_map hnd hr's hr hid
    rw [heq] at he
    have hcount := congrArg Bundle.hopCount he
    simp only [bumpHop] at hcount
    omega

/-- Witness for C6: a record at its hop limit is absent from the pull
result. -/
theorem hop_limit_enforcement_witness :
    (mkBundle 71 Priority.normal Audience.publicT 1 100 5 1 1) ∉
      pullBundles [⟨mkBundle 71 Priority.normal Audience.publicT 1 100 5 1 1, Queue.pending, 1⟩]
        demoPublicPeer :=
  hop_limit_enforcement.2
    [⟨mkBundle 71 Priority.normal Audience.publicT 1 100 5 1 1, Queue.pending, 1⟩]
    demoPublicPeer
    ⟨mkBundle 71 Priority.normal Audience.publicT 1 100 5 1 1, Queue.pending, 1⟩
    (by decide) (by decide) (by decide)

/-- C7: audience gating.  A record is selected for a peer only when the
peer trust tier meets or exceeds the audience tier of the bundle; in
particular a local-trust peer never receives the trusted-audience demo
bundle while a trusted peer does. -/
theorem audience_gating :
    (∀ (s : Store) (q : Queue) (p : PeerContext) (r : StoredBundle),
        r ∈ selectForForward s q p →
          audRank r.bundle.audience ≤ audRank p.trust) ∧
    (selectForForward demoTrustedStore Queue.outbox ⟨Audience.localT, []⟩ = [] ∧
      demoTrustedRec ∈ selectForForward demoTrustedStore Queue.outbox ⟨Audience.trustedT, []⟩) := by
  refine ⟨?_, by decide, by decide⟩
  intro s q p r hr
  exact (eligible_facts p r (selectForForward_facts s q p r hr).2.2).2

/-- Witness for C7: the trusted peer selection of the demo bundle
satisfies the audience bound. -/
theorem audience_gating_witness :
    audRank demoTrustedRec.bundle.audience ≤
      audRank (⟨Audience.trustedT, []⟩ : PeerContext).trust :=
  audience_gating.1 demoTrustedStore Queue.outbox ⟨Audience.trustedT, []⟩ demoTrustedRec
    (by decide)

/-- C8: priority ordering.  selectForForward always returns its result
sorted by priority descending with createdAt ascending as tie-break,
and on the demo store holding candidates of priorities low, emergency
and normal it returns them in the order emergency, normal, low. -/
theorem priority_ordering :
    (∀ (s : Store) (q : Queue) (p : PeerContext),
        List.Sorted fwdLe (selectForForward s q p)) ∧
    selectForForward demoPrioStore Queue.outbox demoPublicPeer =
      [demoEmergencyRec, demoNormalRec, demoLowRec] := by
  refine ⟨?_, by decide⟩
  intro s q p
  exact List.sorted_insertionSort fwdLe _

/-- C1: idempotent ingestion.  Pushing the same bundle twice leaves the
same stored state as pushing it once, whatever the times of the two
pushes; and a push whose bundle id is already known locally in any
queue is a no-op success that is neither re-verified nor re-admitted
(so hop counts and addedToQueueAt are untouched). -/
theorem idempotent_ingestion :
    (∀ (cfg : CacheConfig) (node : NodeCtx) (now1 now2 : Nat) (s : Store) (b : Bundle),
        (receivePush cfg node now2 (receivePush cfg node now1 s [b]).store [b]).store =
          (receivePush cfg node now1 s [b]).store) ∧
    (∀ (cfg : CacheConfig) (node : NodeCtx) (now : Nat) (s : Store) (b : Bundle),
        b.bundleId ∈ knownIds s →
          receivePush cfg node now s [b] = ⟨s, [b.bundleId], []⟩) := by
  refine ⟨?_, fun cfg node now s b h => receivePush_known cfg node now s b h⟩
  intro cfg node now1 now2 s b
  by_cases h1 : b.bundleId ∈ knownIds s
  · rw [receivePush_known cfg node now1 s b h1]
    show (receivePush cfg node now2 s [b]).store = s
    rw [receivePush_known cfg node now2 s b h1]
  · by_cases h2 : verifyBundle b = true
    · by_cases h3 : (admission cfg b s).1 = true
      · have e1 : receivePush cfg node now1 s [b] =
            ⟨(admission cfg b s).2 ++ [⟨b, routeQueue node b, now1⟩], [b.bundleId], []⟩ := by
          rw [receivePush_single]
          unfold stepPush
          simp [h1, h2, h3]
        rw [e1]
        show (receivePush cfg node now2
            ((admission cfg b s).2 ++ [⟨b, routeQueue node b, now1⟩]) [b]).store =
          (admission cfg b s).2 ++ [⟨b, routeQueue node b, now1⟩]
        rw [receivePush_known cfg node now2 _ b (by simp [knownIds])]
      · have h3' : (admission cfg b s).1 = false := by
          simpa using h3
        have e1 : receivePush cfg node now1 s [b] =
            ⟨(admission cfg b s).2, [], [(b.bundleId, Reason.budgetExceeded)]⟩ := by
          rw [receivePush_single]
          unfold stepPush
          simp [h1, h2, h3']
        have hk2 : b.bundleId ∉ knownIds (admission cfg b s).2 := by
          rw [admission_false_state cfg b s h3']
          exact not_known_evictLoop cfg b.sizeBytes s _ h1
        have hrep := admission_repeat cfg b s h3'
        have e2 : receivePush cfg node now2 (admission cfg b s).2 [b] =
            ⟨(admission cfg b s).2, [], [(b.bundleId, Reason.budgetExceeded)]⟩ := by
          rw [receivePush_single]
          unfold stepPush
          simp [hk2, h2, hrep]
        rw [e1]
        show (receivePush cfg node now2 (admission cfg b s).2 [b]).store = (admission cfg b s).2
        rw [e2]
    · have h2' : verifyBundle b = false := by
        simpa using h2
      have e1 : receivePush cfg node now1 s [b] =
          ⟨s ++ [⟨b, Queue.quarantine, now1⟩], [], [(b.bundleId, Reason.invalidSignature)]⟩ := by
        rw [receivePush_single]
        unfold stepPush
        simp [h1, h2']
      rw [e1]
      show (receivePush cfg node now2 (s ++ [⟨b, Queue.quarantine, now1⟩]) [b]).store =
        s ++ [⟨b, Queue.quarantine, now1⟩]
      rw [receivePush_known cfg node now2 _ b (by simp [knownIds])]

/-- Witness for C1: pushing a bundle whose id is already stored is a
no-op success. -/
theorem idempotent_ingestion_witness :
    receivePush demoCfg demoNode 5
        [⟨mkBundle 81 Priority.normal Audience.publicT 1 100 5 0 3, Queue.pending, 1⟩]
        [mkBundle 81 Priority.normal Audience.publicT 1 100 5 0 3] =
      ⟨[⟨mkBundle 81 Priority.normal Audience.publicT 1 100 5 0 3, Queue.pending, 1⟩],
       [81], []⟩ :=
  idempotent_ingestion.2 demoCfg demoNode 5
    [⟨mkBundle 81 Priority.normal Audience.publicT 1 100 5 0 3, Queue.pending, 1⟩]
    (mkBundle 81 Priority.normal Audience.publicT 1 100 5 0 3)
    (by decide)

/-- C9: invalid-signature handling.  A pushed bundle that fails
verification (and is not a known duplicate) is placed in quarantine and
reported as rejected with reason invalid_signature, while the rest of
the batch before and after it is still processed from the resulting
state; and the TTL sweep never moves a quarantined record, so it is not
retried automatically. -/
theorem invalid_signature_handling :
    (∀ (cfg : CacheConfig) (node : NodeCtx) (now : Nat) (s : Store)
        (pre post : List Bundle) (b : Bundle),
        verifyBundle b = false →
        b.bundleId ∉ knownIds (receivePush cfg node now s pre).store →
        receivePush cfg node now s (pre ++ b :: post) =
          ⟨(receivePush cfg node now
              ((receivePush cfg node now s pre).store ++ [⟨b, Queue.quarantine, now⟩]) post).store,
           (receivePush cfg node now s pre).accepted ++
             (receivePush cfg node now
               ((receivePush cfg node now s pre).store ++ [⟨b, Queue.quarantine, now⟩]) post).accepted,
           (receivePush cfg node now s pre).rejected ++
             (b.bundleId, Reason.invalidSignature) ::
               (receivePush cfg node now
                 ((receivePush cfg node now s pre).store ++ [⟨b, Queue.quarantine, now⟩]) post).rejected⟩) ∧
    (∀ (now : Nat) (s : Store) (r : StoredBundle),
        r ∈ s → r.queue = Queue.quarantine → r ∈ ttlSweep now s) := by
  constructor
  · intro cfg node now s pre post b hv hk
    have hsplit : receivePush cfg node now s (pre ++ b :: post) =
        runPush cfg node now (receivePush cfg node now s pre) (b :: post) := by
      unfold receivePush
      exact runPush_append cfg node now ⟨s, [], []⟩ pre (b :: post)
    rw [hsplit, runPush_cons]
    have hstep : stepPush cfg node now (receivePush cfg node now s pre) b =
        ⟨(receivePush cfg node now s pre).store ++ [⟨b, Queue.quarantine, now⟩],
         (receivePush cfg node now s pre).accepted,
         (receivePush cfg node now s pre).rejected ++ [(b.bundleId, Reason.invalidSignature)]⟩ := by
      unfold stepPush
      simp [hk, hv]
    rw [hstep]
    rw [runPush_acc cfg node now post
      ((receivePush cfg node now s pre).store ++ [(⟨b, Queue.quarantine, now⟩ : StoredBundle)])
      (receivePush cfg node now s pre).accepted
      ((receivePush cfg node now s pre).rejected ++ [(b.bundleId, Reason.invalidSignature)])]
    simp [receivePush, List.append_assoc]
  · intro now s r hr hq
    have hs : sweepOne now r = r := by
      unfold sweepOne
      rw [if_neg]
      intro hcc
      exact hcc.1.2.1 hq
    exact hs ▸ List.mem_map_of_mem (sweepOne now) hr

/-- Witness for C9: pushing a single tampered bundle quarantines it and
reports invalid_signature. -/
theorem invalid_signature_handling_witness :
    receivePush demoCfg demoNode 5 []
        [{ mkBundle 41 Priority.normal Audience.publicT 1 100 5 0 3 with payload := 9 }] =
      ⟨[⟨{ mkBundle 41 Priority.normal Audience.publicT 1 100 5 0 3 with payload := 9 },
          Queue.quarantine, 5⟩], [], [(41, Reason.invalidSignature)]⟩ := by
  have h := invalid_signature_handling.1 demoCfg demoNode 5 [] [] []
    { mkBundle 41 Priority.normal Audience.publicT 1 100 5 0 3 with payload := 9 }
    (by decide) (by decide)
  exact h.trans (by decide)

end DTN
